import Mathlib

/-!
Shallow embedding of the two core source files of the repository:

* `packages/schema/src/query_response.rs` — the `QueryResponses` trait with
  its checked entry point `response_schemas()` and the internal
  `check_api_integrity` validation over the schemars-generated structural
  schema of a query enum;
* `packages/schema-derive/src/cw_serde.rs` — the `cw_serde_impl` rewrite of
  a `syn::DeriveInput`.

The schemars schema vocabulary (`RootSchema`, `SchemaObject`,
`SubschemaValidation`, `ObjectValidation`, `InstanceType`, `SingleOrVec`,
`serde_json::Value`) is modelled with exactly the fields the checker reads;
all other fields of the library types are never inspected by the code under
verification and are omitted.  `BTreeSet<String>` values are modelled as
strictly sorted lists of strings; iteration order of a `BTreeSet` is its
ascending order, so `into_iter().next()` is the head of that list.
-/

namespace Cosmwasm

/-- Model of `serde_json::Value` (only `as_str` is used by the checker). -/
inductive Value where
  | null
  | bool (b : Bool)
  | num (n : Int)
  | str (s : String)
  | arr (vs : List Value)

/-- Model of `serde_json::Value::as_str`: `Some` exactly on JSON strings. -/
def Value.as_str : Value → Option String
  | .str s => some s
  | _ => none

/-- Model of `schemars::schema::InstanceType`. -/
inductive InstanceType where
  | null
  | boolean
  | object
  | array
  | number
  | string
  | integer
deriving DecidableEq, Repr

/-- Model of `schemars::schema::SingleOrVec`. -/
inductive SingleOrVec (α : Type) where
  | single (t : α)
  | vec (ts : List α)
deriving DecidableEq, Repr

/-- Model of `schemars::schema::ObjectValidation`, keeping only the
`required : BTreeSet<String>` field read by the checker; the list is the
set in ascending iteration order. -/
structure ObjectValidation where
  required : List String
deriving DecidableEq, Repr

mutual
/-- Model of `schemars::schema::Schema`: either a boolean schema or a
schema object. -/
inductive Schema where
  | bool (b : Bool)
  | obj (o : SchemaObject)

/-- Model of `schemars::schema::SchemaObject` with the four fields the
checker reads: `subschemas`, `instance_type`, `object`, `enum_values`. -/
inductive SchemaObject where
  | mk (subschemas : Option SubschemaValidation)
      (instance_type : Option (SingleOrVec InstanceType))
      (object : Option ObjectValidation)
      (enum_values : Option (List Value))

/-- Model of `schemars::schema::SubschemaValidation`; only its `one_of`
list is read. -/
inductive SubschemaValidation where
  | mk (one_of : Option (List Schema))
end

/-- Field accessor for the mutual-inductive `SchemaObject`. -/
def SchemaObject.subschemas : SchemaObject → Option SubschemaValidation
  | .mk s _ _ _ => s

/-- Field accessor for the mutual-inductive `SchemaObject`. -/
def SchemaObject.instance_type : SchemaObject → Option (SingleOrVec InstanceType)
  | .mk _ t _ _ => t

/-- Field accessor for the mutual-inductive `SchemaObject`. -/
def SchemaObject.object : SchemaObject → Option ObjectValidation
  | .mk _ _ o _ => o

/-- Field accessor for the mutual-inductive `SchemaObject`. -/
def SchemaObject.enum_values : SchemaObject → Option (List Value)
  | .mk _ _ _ e => e

/-- Field accessor for the mutual-inductive `SubschemaValidation`. -/
def SubschemaValidation.one_of : SubschemaValidation → Option (List Schema)
  | .mk o => o

/-- Model of `schemars::schema::Schema::into_object`.  A boolean schema converts to
a schema object whose `instance_type`, `object` and `enum_values` are all
absent (for `false`, schemars sets only a `not` subschema, which the
checker never reads). -/
def Schema.into_object : Schema → SchemaObject
  | .obj o => o
  | .bool _ => .mk none none none none

/-- Model of `schemars::schema::RootSchema`; the checker only reads its
root `schema` object. -/
structure RootSchema where
  schema : SchemaObject

/-- Model of `IntegrityError` from `query_response.rs`. -/
inductive IntegrityError where
  | InvalidQueryMsgSchema
  | InconsistentQueries (query_msg : List String) (responses : List String)
deriving DecidableEq, Repr

/-- Insertion into a `BTreeSet<String>` modelled as a strictly sorted
list: smaller keys first, an equal key is not duplicated. -/
def btreeInsert (x : String) : List String → List String
  | [] => [x]
  | y :: ys =>
    if x < y then x :: y :: ys
    else if x = y then y :: ys
    else y :: btreeInsert x ys

/-- Model of `collect::<BTreeSet<String>>()` on an iterator: left-to-right
insertion into an initially empty set. -/
def toBTreeSet (l : List String) : List String :=
  l.foldl (fun acc x => btreeInsert x acc) []

/-- The closure mapped over the `one_of` alternatives inside
`check_api_integrity`: recover the operation name of one alternative.
An object-shaped alternative yields the first element of its `required`
set (`required.into_iter().next()`), failing only when that set is empty;
a string-shaped alternative yields the single string literal of its
`enum_values`; everything else is `InvalidQueryMsgSchema`. -/
def operationName (s : Schema) : Except IntegrityError String :=
  let o := s.into_object
  match o.instance_type with
  | some (.single ty) =>
    match ty with
    | .object =>
      match o.object with
      | none => .error .InvalidQueryMsgSchema
      | some ov =>
        match ov.required with
        | [] => .error .InvalidQueryMsgSchema
        | n :: _ => .ok n
    | .string =>
      match o.enum_values with
      | none => .error .InvalidQueryMsgSchema
      | some values =>
        match values with
        | [v] =>
          match v.as_str with
          | some n => .ok n
          | none => .error .InvalidQueryMsgSchema
        | _ => .error .InvalidQueryMsgSchema
    | _ => .error .InvalidQueryMsgSchema
  | _ => .error .InvalidQueryMsgSchema

/-- Model of `.map(|s| …).collect::<Result<_, _>>()` over the `one_of` list:
the list of operation names, short-circuiting on the first error. -/
def collectNames : List Schema → Except IntegrityError (List String)
  | [] => .ok []
  | s :: rest =>
    match operationName s with
    | .error e => .error e
    | .ok n =>
      match collectNames rest with
      | .error e => .error e
      | .ok ns => .ok (n :: ns)

/-- The `schema_queries` binding of `check_api_integrity`: the
operation-name set derived from the root schema.  `subschemas` absent
gives the empty set; `subschemas` present without a `one_of` list is
`InvalidQueryMsgSchema`; otherwise the names of all alternatives are
collected into a `BTreeSet`. -/
def schemaQueries (schema : RootSchema) : Except IntegrityError (List String) :=
  match schema.schema.subschemas with
  | some subschemas =>
    match subschemas.one_of with
    | none => .error .InvalidQueryMsgSchema
    | some alts =>
      match collectNames alts with
      | .error e => .error e
      | .ok ns => .ok (toBTreeSet ns)
  | none => .ok []

/-- Model of `check_api_integrity` from `query_response.rs`, with the schema passed
explicitly in place of the `schema_for!(T)` call. -/
def check_api_integrity (schema : RootSchema) (generated_queries : List String) :
    Except IntegrityError Unit :=
  match schemaQueries schema with
  | .error e => .error e
  | .ok schema_queries =>
    if schema_queries ≠ generated_queries then
      .error (.InconsistentQueries schema_queries generated_queries)
    else .ok ()

/-- Model of `QueryResponses::response_schemas`, with the trait items passed
explicitly: `schema` is `schema_for!(Self)` and `impl` is the
`response_schemas_impl()` map, modelled as its (sorted, unique-key)
entry list. -/
def response_schemas (schema : RootSchema) (impl : List (String × RootSchema)) :
    Except IntegrityError (List (String × RootSchema)) :=
  let queries := toBTreeSet (impl.map Prod.fst)
  match check_api_integrity schema queries with
  | .error e => .error e
  | .ok _ => .ok impl

/-- A root schema whose object carries a one-of subschema list, the shape
`schemars` gives the root schema of a sum type with at least one variant. -/
def oneOfSchema (alts : List Schema) : RootSchema :=
  ⟨.mk (some (.mk (some alts))) none none none⟩

/-- An object-shaped one-of alternative with the given `required` set, the
shape a struct-like or tuple-like enum variant presents. -/
def objectAlt (required : List String) : Schema :=
  .obj (.mk none (some (.single .object)) (some ⟨required⟩) none)

/-- A string-shaped one-of alternative with the given enumerated values,
the shape a unit-like enum variant presents. -/
def stringAlt (evs : List Value) : Schema :=
  .obj (.mk none (some (.single .string)) none (some evs))

/-- A leaf root schema used as a response-map value (`schema_for!(u128)`
in the tests); its content is never inspected by the checker. -/
def uintSchema : RootSchema := ⟨.mk none (some (.single .integer)) none none⟩

/-- Modelled from the spec: the one-of alternative that the external
structural-schema facility produces for a tuple-like enum variant with two
positional fields.  The facility itself is not part of the repository's
source; per the spec such a variant presents as an object-shaped
alternative whose required-field count is ambiguous — more than one
required entry stands at this position. -/
def twoFieldTupleAlt : Schema := objectAlt ["account_id_for", "second_field"]

/-! Model of `packages/schema-derive/src/cw_serde.rs` over a shallow
`syn::DeriveInput`.  Attributes keep just the structure `cw_serde_impl`
manipulates; doc comments travel inside `attrs` as they do in `syn`. -/

/-- An argument of a `#[serde(...)]` attribute as used by `cw_serde_impl`. -/
inductive SerdeRule where
  | deny_unknown_fields
  | rename_all_snake_case
deriving DecidableEq, Repr

/-- An outer attribute of a `syn::DeriveInput`. -/
inductive Attribute where
  | derive (traits : List String)
  | allow (lint : String)
  | serde (rules : List SerdeRule)
  | doc (text : String)
  | other (raw : String)
deriving DecidableEq, Repr

/-- A field of a struct, union or enum variant. -/
structure Field where
  name : Option String
  ty : String
deriving DecidableEq, Repr

/-- An enum variant. -/
structure Variant where
  name : String
  fields : List Field
deriving DecidableEq, Repr

/-- Model of `syn::Data`: the body of the definition. -/
inductive Data where
  | Struct (fields : List Field)
  | Enum (variants : List Variant)
  | Union (fields : List Field)
deriving DecidableEq, Repr

/-- Model of `syn::DeriveInput`: outer attributes, name, generics and body. -/
structure DeriveInput where
  attrs : List Attribute
  ident : String
  generics : List String
  data : Data
deriving DecidableEq, Repr

/-- The fixed derive bundle `cw_serde_impl` attaches to every struct and
enum. -/
def cwSerdeDerives : Attribute :=
  .derive ["serde::Serialize", "serde::Deserialize", "Clone", "Debug",
           "PartialEq", "schemars::JsonSchema"]

/-- The attributes prepended to a struct: derive bundle, the clippy allow,
and `#[serde(deny_unknown_fields)]`. -/
def structAttrs : List Attribute :=
  [cwSerdeDerives, .allow ("clippy::derive_partial_eq_without_eq"),
   .serde [.deny_unknown_fields]]

/-- The attributes prepended to an enum: derive bundle, the clippy allow,
and `#[serde(deny_unknown_fields, rename_all = "snake_case")]`. -/
def enumAttrs : List Attribute :=
  [cwSerdeDerives, .allow ("clippy::derive_partial_eq_without_eq"),
   .serde [.deny_unknown_fields, .rename_all_snake_case]]

/-- Model of `cw_serde_impl` from `cw_serde.rs`.  The `panic!` on unions is
modelled as an `Except.error` carrying the panic message. -/
def cw_serde_impl (input : DeriveInput) : Except String DeriveInput :=
  match input.data with
  | .Struct _ => .ok { input with attrs := structAttrs ++ input.attrs }
  | .Enum _ => .ok { input with attrs := enumAttrs ++ input.attrs }
  | .Union _ => .error ("unions are not supported")

/-- A concrete struct input (the `structs` unit test's `InstantiateMsg`). -/
def sampleStructInput : DeriveInput :=
  ⟨[], "InstantiateMsg", [],
   .Struct [⟨some ("verifier"), "String"⟩, ⟨some ("beneficiary"), "String"⟩]⟩

/-- A concrete enum input (the `enums` unit test's `SudoMsg`). -/
def sampleEnumInput : DeriveInput :=
  ⟨[], "SudoMsg", [],
   .Enum [⟨"StealFunds", [⟨some ("recipient"), "String"⟩]⟩]⟩

/-- A concrete union input (the `unions` unit test's `SudoMsg`). -/
def sampleUnionInput : DeriveInput :=
  ⟨[], "SudoMsg", [], .Union [⟨some ("x"), "u32"⟩, ⟨some ("y"), "u32"⟩]⟩

/-! Helper lemmas about the `BTreeSet` model. -/

theorem mem_btreeInsert {x y : String} {l : List String} :
    y ∈ btreeInsert x l ↔ y = x ∨ y ∈ l := by
  induction l with
  | nil => simp [btreeInsert]
  | cons z zs ih =>
    rw [btreeInsert]
    by_cases h1 : x < z
    · rw [if_pos h1]
      simp
    · rw [if_neg h1]
      by_cases h2 : x = z
      · rw [if_pos h2]
        subst h2
        simp only [List.mem_cons]
        tauto
      · rw [if_neg h2]
        simp only [List.mem_cons, ih]
        tauto

theorem sorted_btreeInsert {x : String} {l : List String}
    (h : l.Sorted (· < ·)) : (btreeInsert x l).Sorted (· < ·) := by
  induction l with
  | nil => simp [btreeInsert]
  | cons z zs ih =>
    rw [List.sorted_cons] at h
    by_cases h1 : x < z
    · rw [btreeInsert, if_pos h1, List.sorted_cons]
      refine ⟨?_, List.sorted_cons.mpr h⟩
      intro b hb
      rcases List.mem_cons.mp hb with rfl | hb
      · exact h1
      · exact h1.trans (h.1 b hb)
    · by_cases h2 : x = z
      · rw [btreeInsert, if_neg h1, if_pos h2]
        exact List.sorted_cons.mpr h
      · have h3 : z < x := by
          rcases lt_trichotomy x z with hh | hh | hh
          · exact absurd hh h1
          · exact absurd hh h2
          · exact hh
        rw [btreeInsert, if_neg h1, if_neg h2, List.sorted_cons]
        refine ⟨?_, ih h.2⟩
        intro b hb
        rcases mem_btreeInsert.mp hb with rfl | hb
        · exact h3
        · exact h.1 b hb

theorem sorted_foldl_btreeInsert (l acc : List String)
    (hacc : acc.Sorted (· < ·)) :
    (l.foldl (fun a x => btreeInsert x a) acc).Sorted (· < ·) := by
  induction l generalizing acc with
  | nil => exact hacc
  | cons z zs ih => exact ih _ (sorted_btreeInsert hacc)

theorem sorted_toBTreeSet (l : List String) : (toBTreeSet l).Sorted (· < ·) :=
  sorted_foldl_btreeInsert l [] (by simp)

theorem nodup_toBTreeSet (l : List String) : (toBTreeSet l).Nodup :=
  (sorted_toBTreeSet l).nodup

theorem mem_foldl_btreeInsert (l acc : List String) (y : String) :
    y ∈ l.foldl (fun a x => btreeInsert x a) acc ↔ y ∈ acc ∨ y ∈ l := by
  induction l generalizing acc with
  | nil => simp
  | cons z zs ih =>
    rw [List.foldl_cons, ih, mem_btreeInsert, List.mem_cons]
    tauto

theorem mem_toBTreeSet {y : String} {l : List String} :
    y ∈ toBTreeSet l ↔ y ∈ l := by
  rw [toBTreeSet, mem_foldl_btreeInsert]
  simp

theorem btreeInsert_self (n : String) : btreeInsert n [n] = [n] := by
  simp [btreeInsert, lt_irrefl]

theorem toBTreeSet_pair_self (n : String) : toBTreeSet [n, n] = [n] := by
  show btreeInsert n (btreeInsert n []) = [n]
  rw [btreeInsert, btreeInsert_self]

/-! Helper lemmas about error propagation in the checker. -/

theorem operationName_ok_or_invalid (s : Schema) :
    (∃ n, operationName s = .ok n) ∨
      operationName s = .error .InvalidQueryMsgSchema := by
  rcases s with b | ⟨subs, it, ob, evs⟩
  · exact Or.inr rfl
  · rcases it with _ | ⟨ty | tys⟩
    · exact Or.inr rfl
    · cases ty with
      | object =>
        rcases ob with _ | ⟨req⟩
        · exact Or.inr rfl
        · rcases req with _ | ⟨n, rest⟩
          · exact Or.inr rfl
          · exact Or.inl ⟨n, rfl⟩
      | string =>
        rcases evs with _ | vs
        · exact Or.inr rfl
        · rcases vs with _ | ⟨v, _ | ⟨w, ws⟩⟩
          · exact Or.inr rfl
          · have hred : operationName
                (.obj (.mk subs (some (.single .string)) ob (some [v]))) =
                (match v.as_str with
                 | some n => Except.ok n
                 | none => Except.error .InvalidQueryMsgSchema) := rfl
            rcases hv : v.as_str with _ | n
            · rw [hred, hv]
              exact Or.inr rfl
            · rw [hred, hv]
              exact Or.inl ⟨n, rfl⟩
          · exact Or.inr rfl
      | null => exact Or.inr rfl
      | boolean => exact Or.inr rfl
      | array => exact Or.inr rfl
      | number => exact Or.inr rfl
      | integer => exact Or.inr rfl
    · exact Or.inr rfl

theorem operationName_error {s : Schema} {e : IntegrityError}
    (h : operationName s = .error e) : e = .InvalidQueryMsgSchema := by
  rcases operationName_ok_or_invalid s with ⟨n, hn⟩ | hi
  · rw [hn] at h
    cases h
  · rw [hi] at h
    injection h with h
    exact h.symm

theorem collectNames_error {alts : List Schema} {e : IntegrityError}
    (h : collectNames alts = .error e) : e = .InvalidQueryMsgSchema := by
  induction alts with
  | nil => simp [collectNames] at h
  | cons s rest ih =>
    rw [collectNames] at h
    cases hs : operationName s with
    | error e2 =>
      rw [hs] at h
      cases h
      exact operationName_error hs
    | ok n =>
      rw [hs] at h
      cases hr : collectNames rest with
      | error e2 =>
        rw [hr] at h
        cases h
        exact ih hr
      | ok ns =>
        rw [hr] at h
        cases h

theorem collectNames_error_of_mem {alts : List Schema} {s : Schema}
    {e : IntegrityError} (hmem : s ∈ alts)
    (herr : operationName s = .error e) :
    ∃ e2, collectNames alts = .error e2 := by
  induction alts with
  | nil => cases hmem
  | cons a rest ih =>
    rw [collectNames]
    cases ha : operationName a with
    | error e2 => exact ⟨e2, rfl⟩
    | ok n =>
      cases hr : collectNames rest with
      | error e2 => exact ⟨e2, rfl⟩
      | ok ns =>
        rcases List.mem_cons.mp hmem with rfl | hmem2
        · rw [herr] at ha
          cases ha
        · obtain ⟨e2, h2⟩ := ih hmem2
          rw [h2] at hr
          cases hr

theorem check_error_of_alt_error {alts : List Schema} {s : Schema}
    {e : IntegrityError} (hmem : s ∈ alts)
    (herr : operationName s = .error e) (gq : List String) :
    check_api_integrity (oneOfSchema alts) gq = .error .InvalidQueryMsgSchema := by
  obtain ⟨e2, h2⟩ := collectNames_error_of_mem hmem herr
  have he2 : e2 = .InvalidQueryMsgSchema := collectNames_error h2
  subst he2
  simp [check_api_integrity, schemaQueries, oneOfSchema,
        SchemaObject.subschemas, SubschemaValidation.one_of, h2]

/-! The claims. -/

/-- C1: `response_schemas()` succeeds exactly when the operation-name set
derived from the sum type's own structural schema equals the key set of the
implementer-supplied mapping; on success it returns the raw mapping
unchanged, and the two sets are provably equal element for element, not
merely equal in size. -/
theorem response_schemas_roundtrip (schema : RootSchema)
    (impl : List (String × RootSchema)) :
    (∀ r, response_schemas schema impl = .ok r →
      r = impl ∧
        ∃ sq, schemaQueries schema = .ok sq ∧
          sq = toBTreeSet (impl.map Prod.fst) ∧
          ∀ x, x ∈ sq ↔ x ∈ impl.map Prod.fst) ∧
    (schemaQueries schema = .ok (toBTreeSet (impl.map Prod.fst)) →
      response_schemas schema impl = .ok impl) := by
  constructor
  · intro r hr
    rw [response_schemas] at hr
    cases hc : check_api_integrity schema (toBTreeSet (impl.map Prod.fst)) with
    | error e =>
      rw [hc] at hr
      cases hr
    | ok u =>
      rw [hc] at hr
      dsimp only at hr
      refine ⟨(Except.ok.inj hr).symm, ?_⟩
      rw [check_api_integrity] at hc
      cases hsq : schemaQueries schema with
      | error e =>
        rw [hsq] at hc
        dsimp only at hc
        cases hc
      | ok sq =>
        rw [hsq] at hc
        dsimp only at hc
        by_cases hne : sq ≠ toBTreeSet (impl.map Prod.fst)
        · rw [if_pos hne] at hc
          cases hc
        · push_neg at hne
          exact ⟨sq, rfl, hne, fun x => by rw [hne, mem_toBTreeSet]⟩
  · intro hsq
    rw [response_schemas, check_api_integrity, hsq]
    dsimp only
    rw [if_neg (fun hne => hne rfl)]

/-- C1 witness: the round-trip theorem applied to a concrete one-variant
schema and its matching one-entry mapping. -/
theorem response_schemas_roundtrip_witness :
    response_schemas (oneOfSchema [objectAlt ["supply"]])
        [("supply", uintSchema)] = .ok [("supply", uintSchema)] :=
  (response_schemas_roundtrip (oneOfSchema [objectAlt ["supply"]])
    [("supply", uintSchema)]).2 rfl

/-- C2 counterexample: the claim says an object-shaped alternative with
more than one required field aborts the whole check with
`InvalidQueryMsgSchema` regardless of the mapping; on the code, an
alternative with the two required fields "amount" and "recipient" does not
abort — the first required field is taken as the operation name and the
check succeeds. -/
theorem two_required_fields_accepted :
    check_api_integrity (oneOfSchema [objectAlt ["amount", "recipient"]])
      ["amount"] = .ok () := rfl

/-- C2 amended: for an object-shaped alternative the checker takes the
FIRST required field name (the smallest, in the set's iteration order) as
the operation name; only an alternative with ZERO required fields is
malformed, and such an alternative aborts the whole check with
`InvalidQueryMsgSchema` regardless of the remaining alternatives.  An
alternative with more than one required field is accepted and its extra
required fields are ignored. -/
theorem object_alt_required_behaviour :
    (∀ subs ov evs,
      operationName (.obj (.mk subs (some (.single .object)) (some ov) evs)) =
        (match ov.required with
         | [] => Except.error .InvalidQueryMsgSchema
         | n :: _ => Except.ok n)) ∧
    (∀ subs evs alts gq,
      Schema.obj (.mk subs (some (.single .object)) (some ⟨[]⟩) evs) ∈ alts →
      check_api_integrity (oneOfSchema alts) gq =
        .error .InvalidQueryMsgSchema) := by
  constructor
  · intro subs ov evs
    obtain ⟨req⟩ := ov
    cases req <;> rfl
  · intro subs evs alts gq hmem
    exact check_error_of_alt_error hmem rfl gq

/-- C2 amended witness: the amended behaviour at concrete inputs — a
two-field alternative yields its first required field, and an empty
`required` set aborts the check. -/
theorem object_alt_required_behaviour_witness :
    operationName (objectAlt ["amount", "recipient"]) = .ok ("amount") ∧
    check_api_integrity (oneOfSchema [objectAlt []]) [] =
      .error .InvalidQueryMsgSchema := by
  constructor
  · exact object_alt_required_behaviour.1 none ⟨["amount", "recipient"]⟩ none
  · exact object_alt_required_behaviour.2 none none [objectAlt []] []
      (List.mem_singleton.mpr rfl)

/-- C3 counterexample: the claim says a sum type with a tuple-like variant
of two or more positional fields makes the checker fail with
`InvalidQueryMsgSchema` no matter what the mapping contains; on the code,
the spec-modelled rendering of such a variant (an object alternative with
more than one required entry) is accepted: the first required entry is
taken as the operation name and a matching mapping makes the check
succeed. -/
theorem tuple_variant_not_invalid :
    check_api_integrity (oneOfSchema [twoFieldTupleAlt])
      ["account_id_for"] = .ok () := rfl

/-- C3 amended: for the spec-modelled rendering of a tuple-like variant
with two or more positional fields — an object alternative whose required
set has more than one entry — the checker never returns
`InvalidQueryMsgSchema`: it takes the first required entry as the
operation name and the verdict is decided solely by the set comparison
against the mapping's key set. -/
theorem tuple_variant_first_required (n : String) (rest gq : List String) :
    check_api_integrity (oneOfSchema [objectAlt (n :: rest)]) gq =
      if [n] ≠ gq then .error (.InconsistentQueries [n] gq)
      else .ok () := by
  rw [check_api_integrity]
  have hsq : schemaQueries (oneOfSchema [objectAlt (n :: rest)]) =
      .ok [n] := rfl
  rw [hsq]

/-- C4: for a string-shaped alternative the operation name is the sole
literal of its enumerated value set; an absent set, a set whose length is
not one, or a sole value that is not a string is `InvalidQueryMsgSchema`;
an alternative whose single instance type is neither object nor string, or
whose instance type is not a single type (a vector, or absent), is also
`InvalidQueryMsgSchema`. -/
theorem string_alt_enum_values (subs : Option SubschemaValidation)
    (ob : Option ObjectValidation) :
    (∀ evs,
      operationName (.obj (.mk subs (some (.single .string)) ob evs)) =
        (match evs with
         | none => Except.error .InvalidQueryMsgSchema
         | some values =>
           match values with
           | [v] =>
             (match v.as_str with
              | some n => Except.ok n
              | none => Except.error .InvalidQueryMsgSchema)
           | _ => Except.error .InvalidQueryMsgSchema)) ∧
    (∀ evs ty, ty ≠ InstanceType.object → ty ≠ InstanceType.string →
      operationName (.obj (.mk subs (some (.single ty)) ob evs)) =
        .error .InvalidQueryMsgSchema) ∧
    (∀ evs tys,
      operationName (.obj (.mk subs (some (.vec tys)) ob evs)) =
        .error .InvalidQueryMsgSchema) ∧
    (∀ evs,
      operationName (.obj (.mk subs none ob evs)) =
        .error .InvalidQueryMsgSchema) := by
  refine ⟨?_, ?_, ?_, ?_⟩
  · intro evs
    rcases evs with _ | vs
    · rfl
    · rcases vs with _ | ⟨v, _ | ⟨w, ws⟩⟩ <;> rfl
  · intro evs ty h1 h2
    cases ty
    case object => exact absurd rfl h1
    case string => exact absurd rfl h2
    all_goals rfl
  · intro evs tys
    rfl
  · intro evs
    rfl

/-- C4 witness: the enumerated-value behaviour at concrete alternatives —
a sole string literal names the operation, while an absent set, a
non-string sole value, a scalar instance type, a vector instance type and
an absent instance type each abort. -/
theorem string_alt_enum_values_witness :
    operationName (stringAlt [.str ("liquidity")]) = .ok ("liquidity") ∧
    operationName (.obj (.mk none (some (.single .string)) none none)) =
      .error .InvalidQueryMsgSchema ∧
    operationName (stringAlt [.num 7]) = .error .InvalidQueryMsgSchema ∧
    operationName (.obj (.mk none (some (.single .array)) none none)) =
      .error .InvalidQueryMsgSchema ∧
    operationName (.obj (.mk none (some (.vec [.object, .string])) none none)) =
      .error .InvalidQueryMsgSchema ∧
    operationName (.obj (.mk none none none none)) =
      .error .InvalidQueryMsgSchema := by
  refine ⟨?_, ?_, ?_, ?_, ?_, ?_⟩
  · exact (string_alt_enum_values none none).1 (some [.str ("liquidity")])
  · exact (string_alt_enum_values none none).1 none
  · exact (string_alt_enum_values none none).1 (some [.num 7])
  · exact (string_alt_enum_values none none).2.1 none .array
      (by decide) (by decide)
  · exact (string_alt_enum_values none none).2.2.1 none [.object, .string]
  · exact (string_alt_enum_values none none).2.2.2 none

/-- C5: for a schema exposing no subschemas (a sum type with zero
variants) and an empty implementer-supplied mapping, `response_schemas()`
succeeds with the empty mapping: the schema-derived operation-name set is
treated as empty. -/
theorem empty_msg_works (schema : RootSchema)
    (h : schema.schema.subschemas = none) :
    response_schemas schema [] = .ok [] := by
  rw [response_schemas, check_api_integrity, schemaQueries, h]
  dsimp only
  rw [if_neg (fun hne => hne rfl)]

/-- C5 witness: the empty-schema success at the concrete all-empty root
schema. -/
theorem empty_msg_works_witness :
    response_schemas ⟨.mk none none none none⟩ [] = .ok [] :=
  empty_msg_works ⟨.mk none none none none⟩ rfl

/-- C6: a schema whose single variant renders as "balance-for" checked
against a mapping keyed "balance_for" fails with `InconsistentQueries`
carrying the full schema-derived set on one side and the full declared key
set on the other. -/
theorem bad_msg_fails :
    response_schemas (oneOfSchema [objectAlt ["balance-for"]])
        [("balance_for", uintSchema)] =
      .error (.InconsistentQueries ["balance-for"] ["balance_for"]) := rfl

/-- C9: a schema whose subschemas section is present but has no one-of
list makes the checker fail with the typed `InvalidQueryMsgSchema` value
for every supplied key set (so also for the empty one), rather than
treating the derived set as empty; only a schema with no subschemas
section at all derives the empty set. -/
theorem subschemas_without_one_of (schema : RootSchema) :
    (∀ sv, schema.schema.subschemas = some sv → sv.one_of = none →
      ∀ gq, check_api_integrity schema gq = .error .InvalidQueryMsgSchema) ∧
    (schema.schema.subschemas = none → schemaQueries schema = .ok []) := by
  constructor
  · intro sv h1 h2 gq
    rw [check_api_integrity, schemaQueries, h1]
    dsimp only
    rw [h2]
  · intro h
    rw [schemaQueries, h]

/-- C9 witness: the subschemas-without-one-of failure and the
no-subschemas empty set at concrete schemas. -/
theorem subschemas_without_one_of_witness :
    check_api_integrity ⟨.mk (some (.mk none)) none none none⟩ [] =
      .error .InvalidQueryMsgSchema ∧
    schemaQueries ⟨.mk none none none none⟩ = .ok [] :=
  ⟨(subschemas_without_one_of ⟨.mk (some (.mk none)) none none none⟩).1
      (.mk none) rfl rfl [],
   (subschemas_without_one_of ⟨.mk none none none none⟩).2 rfl⟩

/-- C10: the integrity comparison is over sets, not multisets — the
derived names are collected into a deduplicated set (the `toBTreeSet`
image is nodup and keeps exactly the underlying names), so two
alternatives yielding the same operation name collapse to one entry and
the check still succeeds against a mapping with fewer entries than the
one-of list has alternatives. -/
theorem duplicate_names_collapse (a b : Schema) (n : String)
    (impl : List (String × RootSchema))
    (ha : operationName a = .ok n) (hb : operationName b = .ok n)
    (hk : toBTreeSet (impl.map Prod.fst) = [n]) :
    response_schemas (oneOfSchema [a, b]) impl = .ok impl ∧
    (∀ l : List String, (toBTreeSet l).Nodup ∧ ∀ x, x ∈ toBTreeSet l ↔ x ∈ l) ∧
    [a, b].length > (toBTreeSet (impl.map Prod.fst)).length := by
  have hcoll : collectNames [a, b] = .ok [n, n] := by
    rw [collectNames, ha, collectNames, hb, collectNames]
  have hsq : schemaQueries (oneOfSchema [a, b]) = .ok [n] := by
    rw [schemaQueries]
    dsimp only [oneOfSchema, SchemaObject.subschemas, SubschemaValidation.one_of]
    rw [hcoll]
    dsimp only
    rw [toBTreeSet_pair_self]
  refine ⟨?_, fun l => ⟨nodup_toBTreeSet l, fun x => mem_toBTreeSet⟩, ?_⟩
  · rw [response_schemas, check_api_integrity, hsq]
    dsimp only
    rw [hk, if_neg (fun hne => hne rfl)]
  · rw [hk]
    simp

/-- C10 witness: two alternatives deriving the same name "supply" checked
against a single-entry mapping succeed. -/
theorem duplicate_names_collapse_witness :
    response_schemas (oneOfSchema [objectAlt ["supply"], stringAlt [.str ("supply")]])
        [("supply", uintSchema)] = .ok [("supply", uintSchema)] :=
  (duplicate_names_collapse (objectAlt ["supply"]) (stringAlt [.str ("supply")])
    ("supply") [("supply", uintSchema)] rfl rfl rfl).1

/-- C7: on a struct `cw_serde_impl` only prepends the fixed derive bundle
(serialize, deserialize, clone, debug, equality, schema generation), the
clippy allow and the deny-unknown-fields policy — with no snake_case
renaming rule — leaving the name, generics, body (field list) and any
pre-existing attributes, doc attributes included, unchanged; on an enum it
prepends the same bundle with the snake_case renaming rule added, leaving
the variant list unchanged. -/
theorem cw_serde_impl_struct_enum :
    (∀ input fields, input.data = Data.Struct fields →
      cw_serde_impl input =
        .ok { input with attrs := structAttrs ++ input.attrs } ∧
      (∀ rules, Attribute.serde rules ∈ structAttrs →
        SerdeRule.rename_all_snake_case ∉ rules) ∧
      cwSerdeDerives ∈ structAttrs ∧
      Attribute.serde [SerdeRule.deny_unknown_fields] ∈ structAttrs) ∧
    (∀ input variants, input.data = Data.Enum variants →
      cw_serde_impl input =
        .ok { input with attrs := enumAttrs ++ input.attrs } ∧
      cwSerdeDerives ∈ enumAttrs ∧
      Attribute.serde [SerdeRule.deny_unknown_fields,
        SerdeRule.rename_all_snake_case] ∈ enumAttrs) := by
  constructor
  · rintro ⟨attrs, ident, generics, data⟩ fields h
    cases h
    refine ⟨rfl, ?_, ?_, ?_⟩
    · intro rules hr
      simp [structAttrs, cwSerdeDerives] at hr
      subst hr
      decide
    · simp [structAttrs]
    · simp [structAttrs]
  · rintro ⟨attrs, ident, generics, data⟩ variants h
    cases h
    exact ⟨rfl, by simp [enumAttrs], by simp [enumAttrs]⟩

/-- C7 witness: the rewrite at the concrete unit-test struct and enum
inputs (which carry no pre-existing attributes). -/
theorem cw_serde_impl_struct_enum_witness :
    cw_serde_impl sampleStructInput =
      .ok { sampleStructInput with attrs := structAttrs } ∧
    cw_serde_impl sampleEnumInput =
      .ok { sampleEnumInput with attrs := enumAttrs } :=
  ⟨(cw_serde_impl_struct_enum.1 sampleStructInput _ rfl).1,
   (cw_serde_impl_struct_enum.2 sampleEnumInput _ rfl).1⟩

/-- C8: applied to a union-shaped definition, `cw_serde_impl` always
aborts with the fixed static message "unions are not supported" and never
returns a value, for every union input. -/
theorem cw_serde_union_aborts (input : DeriveInput) (fields : List Field)
    (h : input.data = Data.Union fields) :
    cw_serde_impl input = .error ("unions are not supported") := by
  rcases input with ⟨attrs, ident, generics, data⟩
  cases h
  rfl

/-- C8 witness: the abort at the concrete unit-test union input. -/
theorem cw_serde_union_aborts_witness :
    cw_serde_impl sampleUnionInput = .error ("unions are not supported") :=
  cw_serde_union_aborts sampleUnionInput _ rfl

end Cosmwasm
